import Mathlib

/-! Shallow embedding of the shoot-n-kill authoritative game server.

The session server (rooms, join/disconnect/start/update handlers, the
per-tick projectile simulation loop) is translated from the Socket.IO
server source; the physics and collision kernel (vector math, wall and
player collision tests, projectile creation and advancement) is
translated from the game engine module it imports.

JavaScript `Map`s are modelled as association lists in insertion order
(`Map` iteration order), keyed through an explicit key function; numbers
are modelled as real numbers, millisecond timestamps as integers. -/

/-- Two-dimensional vector, the `Vector2D` game type. -/
structure Vector2D where
  x : ℝ
  y : ℝ

/-- Player record, the `Player` game type as the server builds it. -/
structure Player where
  id : String
  username : String
  position : Vector2D
  rotation : ℝ
  health : ℝ
  isCreator : Bool

/-- Projectile record, the `Projectile` game type. -/
structure Projectile where
  id : String
  position : Vector2D
  velocity : Vector2D
  playerId : String

/-- Room lifecycle status, the `GameState` status union. -/
inductive Status where
  | waiting
  | playing
  | finished
deriving DecidableEq

/-- Room record, the server `GameRoom` interface. -/
structure GameRoom where
  id : String
  players : List Player
  projectiles : List Projectile
  status : Status
  creatorId : String
  lastActivity : ℤ
  lastPlayerUpdates : List (String × ℤ)

/-- Entry of the `recentlyDisconnected` table. -/
structure DisconnectInfo where
  roomId : String
  timestamp : ℤ
  username : String
  wasCreator : Bool

/-- Process-wide server state: the `rooms` map and the
`recentlyDisconnected` map. -/
structure ServerState where
  rooms : List (String × GameRoom)
  recentlyDisconnected : List (String × DisconnectInfo)

/-- Outbound socket events emitted by the server. -/
inductive Event where
  | errorStr (message : String)
  | errorMsg (message : String)
  | roomCreated (roomId playerId : String) (isCreator : Bool)
  | roomJoined (playerId : String) (players : List Player) (isCreator : Bool)
  | playerJoined (player : Player)
  | playerLeft (playerId : String)
  | creatorChanged (newCreatorId : String) (players : List Player)
  | playerUpdated (playerId : String) (position : Option Vector2D)
      (rotation : Option ℝ) (health : Option ℝ)
  | gameStarted
  | projectileCreated (projectile : Projectile)
  | projectilesUpdate (projectiles : List Projectile)
  | projectilesUpdated (projectiles : List Projectile)
  | projectileHit (projectileId : String) (playerId : Option String) (damage : Option ℝ)
  | playerDied (playerId : String) (killerUsername : String)
  | gameOver (winnerUsername winnerId : String)

/-- Lookup in a JavaScript `Map` modelled as an association list: `Map.get`. -/
def alFind {α : Type} (key : α → String) (m : List α) (k : String) : Option α :=
  m.find? (fun a => key a == k)

/-- `Map.set`: replace the entry with the given key in place, or append a
fresh entry at the end (insertion order). -/
def alSet {α : Type} (key : α → String) (m : List α) (k : String) (v : α) : List α :=
  if m.any (fun a => key a == k) then m.map (fun a => if key a == k then v else a)
  else m ++ [v]

/-- `Map.delete`: drop the entry with the given key. -/
def alDelete {α : Type} (key : α → String) (m : List α) (k : String) : List α :=
  m.filter (fun a => !(key a == k))

/-- Game constant: projectile speed in units per tick. -/
def PROJECTILE_SPEED : ℝ := 10

/-- Game constant: map width. -/
def MAP_WIDTH : ℝ := 800

/-- Game constant: map height. -/
def MAP_HEIGHT : ℝ := 600

/-- Game constant: player circle radius. -/
def PLAYER_RADIUS : ℝ := 20

/-- Game constant: projectile circle radius. -/
def PROJECTILE_RADIUS : ℝ := 5

/-- Server constant: minimum milliseconds between accepted player updates. -/
def MIN_UPDATE_INTERVAL : ℤ := 50

/-- Server constant: game update loop interval in milliseconds. -/
def GAME_UPDATE_INTERVAL : ℝ := 33

/-- Vector addition, `vectorAdd` from the engine. -/
def vectorAdd (a b : Vector2D) : Vector2D := ⟨a.x + b.x, a.y + b.y⟩

/-- Scalar multiplication, `vectorMultiply` from the engine. -/
def vectorMultiply (v : Vector2D) (scalar : ℝ) : Vector2D := ⟨v.x * scalar, v.y * scalar⟩

/-- Unit vector at an angle, `vectorFromAngle` from the engine. -/
noncomputable def vectorFromAngle (angle : ℝ) : Vector2D :=
  ⟨Real.cos angle, Real.sin angle⟩

/-- Euclidean distance, `distance` from the engine. -/
noncomputable def distance (a b : Vector2D) : ℝ :=
  Real.sqrt ((b.x - a.x) * (b.x - a.x) + (b.y - a.y) * (b.y - a.y))

/-- Wall collision test, `checkWallCollision` from the engine: true when the
circle of the given radius pokes outside the map rectangle (strict
comparisons). -/
def checkWallCollision (pos : Vector2D) (radius : ℝ) : Prop :=
  pos.x - radius < 0 ∨ pos.x + radius > MAP_WIDTH ∨
  pos.y - radius < 0 ∨ pos.y + radius > MAP_HEIGHT

/-- Result record of `checkProjectileCollision`. -/
structure CollisionResult where
  hit : Bool
  playerId : Option String
deriving DecidableEq

/-- Projectile creation, `createProjectile` from the engine; the random id
string is passed in as a parameter. -/
noncomputable def createProjectile (position : Vector2D) (angle : ℝ)
    (playerId : String) (newId : String) : Projectile :=
  { id := newId, position := position,
    velocity := vectorMultiply (vectorFromAngle angle) PROJECTILE_SPEED,
    playerId := playerId }

/-- One-tick projectile advancement, `updateProjectile` from the engine. -/
def updateProjectile (projectile : Projectile) : Projectile :=
  { projectile with position := vectorAdd projectile.position projectile.velocity }

open Classical in
/-- Player-scan part of `checkProjectileCollision`: walk the player list in
order, skip the owner, return the first player strictly within
`PLAYER_RADIUS + PROJECTILE_RADIUS`. -/
noncomputable def scanPlayers (projectile : Projectile) : List Player → CollisionResult
  | [] => ⟨false, none⟩
  | player :: rest =>
    if player.id = projectile.playerId then scanPlayers projectile rest
    else if distance projectile.position player.position < PLAYER_RADIUS + PROJECTILE_RADIUS then
      ⟨true, some player.id⟩
    else scanPlayers projectile rest

open Classical in
/-- Collision resolution, `checkProjectileCollision` from the engine: wall
test first (hit with no player), then the ordered player scan. -/
noncomputable def checkProjectileCollision (projectile : Projectile)
    (players : List Player) : CollisionResult :=
  if checkWallCollision projectile.position PROJECTILE_RADIUS then ⟨true, none⟩
  else scanPlayers projectile players

/-- The `createRoom` handler. The fresh uuid is passed in as a parameter. -/
def createRoom (st : ServerState) (socketId username : String) (now : ℤ)
    (newRoomId : String) : ServerState × List Event :=
  if st.rooms.any (fun r => r.2.players.any (fun p => p.username == username)) then
    (st, [Event.errorStr "You already have an active room"])
  else
    let player : Player := ⟨socketId, username, ⟨400, 300⟩, 0, 100, true⟩
    let room : GameRoom := ⟨newRoomId, [player], [], Status.waiting, socketId, now, []⟩
    ({ st with rooms := alSet Prod.fst st.rooms newRoomId (newRoomId, room) },
     [Event.roomCreated newRoomId socketId true,
      Event.roomJoined socketId [player] true])

/-- The `joinRoom` handler. The random spawn position is passed in as a
parameter. -/
def joinRoom (st : ServerState) (socketId roomId username : String) (now : ℤ)
    (spawn : Vector2D) : ServerState × List Event :=
  if roomId = "create" then (st, [Event.errorStr "Invalid room ID"])
  else
    match alFind Prod.fst st.rooms roomId with
    | none => (st, [Event.errorStr "Room not found"])
    | some entry =>
      let room := entry.2
      let disconnectedPlayer := alFind Prod.fst st.recentlyDisconnected username
      let isReconnecting : Bool :=
        match disconnectedPlayer with
        | some d => d.2.roomId == roomId
        | none => false
      let existingPlayer := room.players.find? (fun p => p.username == username)
      if (match existingPlayer with
          | some e => e.id != socketId
          | none => false) && !isReconnecting then
        (st, [Event.errorStr "Username already taken in this room"])
      else
        let isCreatorStatus : Bool :=
          if isReconnecting then
            match disconnectedPlayer with
            | some d => d.2.wasCreator
            | none => false
          else false
        let newPlayer : Player := ⟨socketId, username, spawn, 0, 100, isCreatorStatus⟩
        let room1 :=
          if isReconnecting && (match disconnectedPlayer with
              | some d => d.2.wasCreator
              | none => false) then
            { room with creatorId := socketId,
                        players := room.players.map
                          (fun p => if p.isCreator then { p with isCreator := false } else p) }
          else room
        let room2 := { room1 with
          players := alSet Player.id room1.players socketId newPlayer,
          lastActivity := now }
        let rd1 := if isReconnecting then alDelete Prod.fst st.recentlyDisconnected username
                   else st.recentlyDisconnected
        let updatedPlayers := room2.players.map
          (fun p => { p with isCreator := (p.id == room2.creatorId) || p.isCreator })
        ({ rooms := alSet Prod.fst st.rooms roomId (roomId, room2),
           recentlyDisconnected := rd1 },
         [Event.roomJoined socketId updatedPlayers newPlayer.isCreator,
          Event.playerJoined newPlayer])

/-- The socket `disconnect` handler. The socket data room id is passed in
as a parameter (it is `none` when the socket never joined a room). -/
def disconnectHandler (st : ServerState) (socketId : String)
    (socketRoomId : Option String) (now : ℤ) : ServerState × List Event :=
  match socketRoomId with
  | none => (st, [])
  | some roomId =>
    match alFind Prod.fst st.rooms roomId with
    | none => (st, [])
    | some entry =>
      let room := entry.2
      match alFind Player.id room.players socketId with
      | none => (st, [])
      | some player =>
        let rd1 := alSet Prod.fst st.recentlyDisconnected player.username
          (player.username,
           ⟨roomId, now, player.username, player.isCreator || (socketId == room.creatorId)⟩)
        let players1 := alDelete Player.id room.players socketId
        if (socketId == room.creatorId) && decide (0 < players1.length) then
          match players1 with
          | nc :: rest =>
            let players2 := { nc with isCreator := true } :: rest
            let room1 := { room with players := players2, creatorId := nc.id, lastActivity := now }
            let rooms1 := alSet Prod.fst st.rooms roomId (roomId, room1)
            ({ rooms := rooms1, recentlyDisconnected := rd1 },
             [Event.creatorChanged nc.id players2, Event.playerLeft socketId])
          | [] =>
            -- unreachable: the guard requires a nonempty remaining player list
            let room1 := { room with players := players1, lastActivity := now }
            let rooms1 := alSet Prod.fst st.rooms roomId (roomId, room1)
            ({ rooms := rooms1, recentlyDisconnected := rd1 },
             [Event.playerLeft socketId])
        else
          let room1 := { room with players := players1, lastActivity := now }
          let rooms1 := alSet Prod.fst st.rooms roomId (roomId, room1)
          ({ rooms := rooms1, recentlyDisconnected := rd1 },
           [Event.playerLeft socketId])

/-- The `updatePlayer` handler with its per-player rate limit. -/
def updatePlayer (st : ServerState) (socketId roomId : String)
    (position : Vector2D) (rotation : ℝ) (now : ℤ) : ServerState × List Event :=
  match alFind Prod.fst st.rooms roomId with
  | none => (st, [])
  | some entry =>
    let room := entry.2
    let lastUpdate : ℤ := ((alFind Prod.fst room.lastPlayerUpdates socketId).map Prod.snd).getD 0
    if now - lastUpdate < MIN_UPDATE_INTERVAL then (st, [])
    else
      match alFind Player.id room.players socketId with
      | none => (st, [])
      | some player =>
        let updatedPlayer := { player with position := position, rotation := rotation }
        let room1 := { room with
          players := alSet Player.id room.players socketId updatedPlayer,
          lastPlayerUpdates := alSet Prod.fst room.lastPlayerUpdates socketId (socketId, now),
          lastActivity := now }
        ({ st with rooms := alSet Prod.fst st.rooms roomId (roomId, room1) },
         [Event.playerUpdated socketId (some position) (some rotation) none])

/-- The `startGame` handler. -/
def startGame (st : ServerState) (socketId roomId : String) : ServerState × List Event :=
  match alFind Prod.fst st.rooms roomId with
  | none => (st, [Event.errorMsg "Room not found"])
  | some entry =>
    let room := entry.2
    if socketId != room.creatorId then
      (st, [Event.errorMsg "Only the room creator can start the game"])
    else if room.players.length < 2 then
      (st, [Event.errorMsg "Need at least 2 players to start"])
    else
      let rooms1 := alSet Prod.fst st.rooms roomId (roomId, { room with status := Status.playing })
      ({ st with rooms := rooms1 }, [Event.gameStarted])

/-- Accumulator state while the game update loop filters a room's
projectile array: current players, room status, emitted events, and the
projectiles kept for the next tick. -/
structure TickAcc where
  players : List Player
  status : Status
  events : List Event
  kept : List Projectile

open Classical in
/-- Body of the game update loop's projectile filter: advance one
projectile, test the wall, resolve the player collision, apply damage,
remove dead players, and detect game over. -/
noncomputable def processProjectile (acc : TickAcc) (projectile : Projectile) : TickAcc :=
  let updated := updateProjectile projectile
  if checkWallCollision updated.position PROJECTILE_RADIUS then
    { acc with events := acc.events ++ [Event.projectileHit projectile.id none none] }
  else
    let collision := checkProjectileCollision updated acc.players
    if collision.hit then
      match collision.playerId with
      | none => acc
      | some pid =>
        match alFind Player.id acc.players pid with
        | none => acc
        | some hitPlayer =>
          let shooter := alFind Player.id acc.players projectile.playerId
          let newHealth : ℝ := max 0 (hitPlayer.health - 20)
          let players1 := alSet Player.id acc.players pid { hitPlayer with health := newHealth }
          let events1 := acc.events ++
            [Event.playerUpdated hitPlayer.id none none (some newHealth),
             Event.projectileHit projectile.id (some pid) (some 20)]
          if newHealth ≤ 0 then
            let events2 := events1 ++ [Event.playerDied hitPlayer.id
              (match shooter with | some s => s.username | none => "Unknown")]
            let players2 := alDelete Player.id players1 hitPlayer.id
            if players2.length = 1 then
              match players2 with
              | w :: _ =>
                { players := players2, status := Status.finished,
                  events := events2 ++ [Event.gameOver w.username w.id],
                  kept := acc.kept }
              | [] =>
                { players := players2, status := acc.status, events := events2,
                  kept := acc.kept }
            else
              { players := players2, status := acc.status, events := events2,
                kept := acc.kept }
          else
            { acc with players := players1, events := events1 }
    else
      { acc with kept := acc.kept ++ [updated] }

/-- One pass of the game update loop over a single room: skipped unless the
room is `playing`; otherwise filter every projectile in order, then
broadcast the surviving projectile set. -/
noncomputable def tickRoom (room : GameRoom) : GameRoom × List Event :=
  if room.status = Status.playing then
    let acc := room.projectiles.foldl processProjectile ⟨room.players, room.status, [], []⟩
    let events1 :=
      if 0 < acc.kept.length then acc.events ++ [Event.projectilesUpdate acc.kept]
      else acc.events
    ({ room with players := acc.players, status := acc.status, projectiles := acc.kept },
     events1 ++ [Event.projectilesUpdated acc.kept])
  else (room, [])

/-- Derived quantity for the speed claim: simulation ticks per second at
the 33 ms game update interval. -/
noncomputable def ticksPerSecond : ℝ := 1000 / GAME_UPDATE_INTERVAL

/-- Derived quantity for the speed claim: magnitude of the displacement a
freshly created projectile undergoes in one tick, measured with the
engine's own `distance`. -/
noncomputable def perTickSpeed (position : Vector2D) (angle : ℝ)
    (playerId newId : String) : ℝ :=
  distance position (updateProjectile (createProjectile position angle playerId newId)).position

/-- Creator invariant of the room data model: whenever the player mapping
is non-empty, `creatorId` is the id of some present player marked
`isCreator`. -/
def creatorInv (room : GameRoom) : Prop :=
  room.players ≠ [] → ∃ p ∈ room.players, p.id = room.creatorId ∧ p.isCreator = true

/-- Creator invariant over every room of the server state. -/
def allRoomsInv (st : ServerState) : Prop :=
  ∀ r ∈ st.rooms, creatorInv r.2

/-- Reconnection-as-former-creator condition of the `joinRoom` handler. -/
def reconnectingCreator (st : ServerState) (roomId username : String) : Prop :=
  ∃ d, alFind Prod.fst st.recentlyDisconnected username = some d ∧
    d.2.roomId = roomId ∧ d.2.wasCreator = true

/-- Side condition under which `joinRoom` preserves the creator invariant:
the joining connection is not already present, and the room is non-empty
unless the join is a creator reconnection. -/
def joinOk (st : ServerState) (socketId roomId username : String) : Prop :=
  ∀ entry, alFind Prod.fst st.rooms roomId = some entry →
    alFind Player.id entry.2.players socketId = none ∧
    (entry.2.players ≠ [] ∨ reconnectingCreator st roomId username)

/-- Hit predicate of the ordered player scan: not the owner, and the player
circle strictly overlaps the projectile circle. -/
def playerHit (projectile : Projectile) (q : Player) : Prop :=
  q.id ≠ projectile.playerId ∧
  distance projectile.position q.position < PLAYER_RADIUS + PROJECTILE_RADIUS

/-- Extract the gameOver events from an event list. -/
def goFilter (events : List Event) : List Event :=
  events.filter fun e => match e with
    | Event.gameOver _ _ => true
    | _ => false

/-! Concrete instances and invariant definitions used by the
verification below. -/

/-- Concrete room and server state used by the rate-limit witnesses: one
player with socket id s whose last accepted update was at time 100. -/
def roomW8 : GameRoom :=
  ⟨"r", [⟨"s", "u", ⟨1, 2⟩, 0, 100, true⟩], [], Status.waiting, "s", 0, [("s", 100)]⟩

/-- Server state wrapping `roomW8`. -/
def stW8 : ServerState := ⟨[("r", roomW8)], []⟩

/-- Concrete waiting room with two players used by the startGame witness. -/
def roomW5 : GameRoom :=
  ⟨"r", [⟨"a", "u1", ⟨1, 1⟩, 0, 100, true⟩, ⟨"b", "u2", ⟨2, 2⟩, 0, 100, false⟩], [],
   Status.waiting, "a", 0, []⟩

/-- Server state wrapping `roomW5`. -/
def stW5 : ServerState := ⟨[("r", roomW5)], []⟩

/-- Concrete playing room with one player, used to exhibit the missing
late-join rejection. -/
def roomC2 : GameRoom :=
  ⟨"r", [⟨"s1", "alice", ⟨400, 300⟩, 0, 100, true⟩], [], Status.playing, "s1", 0, []⟩

/-- Server state wrapping `roomC2`. -/
def stC2 : ServerState := ⟨[("r", roomC2)], []⟩

/-- Concrete room where a temporary creator s3 was promoted while the
original creator alice is recorded in recentlyDisconnected. -/
def roomC4 : GameRoom :=
  ⟨"r", [⟨"s3", "tmp", ⟨10, 10⟩, 0, 100, true⟩], [], Status.waiting, "s3", 0, []⟩

/-- Server state wrapping `roomC4` with alice recorded as a disconnected
former creator of room r. -/
def stC4 : ServerState :=
  ⟨[("r", roomC4)], [("alice", ⟨"r", 0, "alice", true⟩)]⟩

/-- Room whose last player has disconnected: the players mapping is empty
but creatorId still names the departed connection (exactly the state the
disconnect handler leaves behind when no player remains to promote). -/
def roomC1 : GameRoom := ⟨"r", [], [], Status.waiting, "gone", 0, []⟩

/-- Server state wrapping `roomC1` (the grace entry has already been
purged by the reaper). -/
def stC1 : ServerState := ⟨[("r", roomC1)], []⟩

/-- Invariant carried through the projectile filter of one tick: player
ids stay distinct, and either the room is still playing with no gameOver
emitted and at least two players alive, or it is finished with at most one
player left and exactly one gameOver event naming that player. -/
def TickInv (acc : TickAcc) : Prop :=
  (acc.players.map Player.id).Nodup ∧
  ((acc.status = Status.playing ∧ goFilter acc.events = [] ∧ 2 ≤ acc.players.length) ∨
   (acc.status = Status.finished ∧ acc.players.length ≤ 1 ∧
     ∃ u i, goFilter acc.events = [Event.gameOver u i] ∧
       ∀ p ∈ acc.players, p.username = u ∧ p.id = i))

/-- Creator alice at (100,100) with 20 health. -/
def pA : Player := ⟨"a", "alice", ⟨100, 100⟩, 0, 20, true⟩

/-- Player bob at (300,300) with 20 health. -/
def pB : Player := ⟨"b", "bob", ⟨300, 300⟩, 0, 20, false⟩

/-- Player carol at (500,300) with full health. -/
def pC : Player := ⟨"c", "carol", ⟨500, 300⟩, 0, 100, false⟩

/-- Carol's projectile one step short of alice. -/
def projT1 : Projectile := ⟨"q1", ⟨90, 100⟩, ⟨10, 0⟩, "c"⟩

/-- Carol's projectile one step short of bob. -/
def projT2 : Projectile := ⟨"q2", ⟨290, 300⟩, ⟨10, 0⟩, "c"⟩

/-- Playing room where both projT1 and projT2 deal lethal damage within
the same tick, leaving carol the sole survivor. -/
def roomT : GameRoom := ⟨"r", [pA, pB, pC], [projT1, projT2], Status.playing, "a", 0, []⟩

/-- Events emitted while resolving projT1 (alice dies, no game over yet). -/
def eventsT1 : List Event :=
  [Event.playerUpdated "a" none none (some 0),
   Event.projectileHit "q1" (some "a") (some 20),
   Event.playerDied "a" "carol"]

/-- Events after also resolving projT2 (bob dies, game over for carol). -/
def eventsT2 : List Event := eventsT1 ++
  [Event.playerUpdated "b" none none (some 0),
   Event.projectileHit "q2" (some "b") (some 20),
   Event.playerDied "b" "carol",
   Event.gameOver "carol" "c"]

/-! Association-list lemmas about the `Map` model. -/

lemma key_of_alFind {α : Type} {key : α → String} {m : List α} {k : String} {v : α}
    (h : alFind key m k = some v) : key v = k := by
  have hp := List.find?_some h
  exact eq_of_beq hp

lemma mem_of_alFind {α : Type} {key : α → String} {m : List α} {k : String} {v : α}
    (h : alFind key m k = some v) : v ∈ m :=
  List.mem_of_find?_eq_some h

lemma alFind_none_iff {α : Type} (key : α → String) (m : List α) (k : String) :
    alFind key m k = none ↔ ∀ a ∈ m, ¬ key a = k := by
  simp [alFind, List.find?_eq_none]

lemma any_key_of_alFind {α : Type} {key : α → String} {m : List α} {k : String} {v : α}
    (h : alFind key m k = some v) : m.any (fun a => key a == k) = true := by
  rw [List.any_eq_true]
  exact ⟨v, mem_of_alFind h, by simp [key_of_alFind h]⟩

lemma alSet_of_present {α : Type} {key : α → String} {m : List α} {k : String} {w : α}
    (v : α) (h : alFind key m k = some w) :
    alSet key m k v = m.map (fun a => if key a == k then v else a) := by
  simp [alSet, any_key_of_alFind h]

lemma alSet_of_absent {α : Type} {key : α → String} {m : List α} {k : String}
    (v : α) (h : alFind key m k = none) :
    alSet key m k v = m ++ [v] := by
  have hany : m.any (fun a => key a == k) = false := by
    rw [List.any_eq_false]
    intro a ha
    simpa using (alFind_none_iff key m k).mp h a ha
  simp [alSet, hany]

lemma mem_alSet {α : Type} {key : α → String} {m : List α} {k : String} {v a : α}
    (h : a ∈ alSet key m k v) : a = v ∨ a ∈ m := by
  unfold alSet at h
  split at h
  · obtain ⟨b, hb, hba⟩ := List.mem_map.mp h
    by_cases hbk : (key b == k) = true
    · left; rw [if_pos hbk] at hba; exact hba.symm
    · right; rw [if_neg hbk] at hba; exact hba ▸ hb
  · rcases List.mem_append.mp h with hm | hv
    · exact Or.inr hm
    · exact Or.inl (List.mem_singleton.mp hv)

lemma find_map_replace {α : Type} {key : α → String} {k : String} {v : α}
    (hv : key v = k) (m : List α) (hany : m.any (fun a => key a == k) = true) :
    (m.map (fun a => if key a == k then v else a)).find? (fun a => key a == k) = some v := by
  induction m with
  | nil => simp at hany
  | cons a t ih =>
    by_cases ha : (key a == k) = true
    · simp only [List.map_cons, if_pos ha]
      simp [List.find?_cons, hv]
    · have ha2 : (key a == k) = false := by simpa using ha
      simp only [List.map_cons, if_neg ha]
      simp only [List.find?_cons, ha2]
      refine ih ?_
      simpa [List.any_cons, ha2] using hany

lemma alFind_alSet_self {α : Type} {key : α → String} (m : List α) {k : String} {v : α}
    (hv : key v = k) : alFind key (alSet key m k v) k = some v := by
  rcases hfind : alFind key m k with _ | w
  · rw [alSet_of_absent v hfind]
    unfold alFind at hfind ⊢
    rw [List.find?_append, hfind]
    simp [List.find?_cons, hv]
  · rw [alSet_of_present v hfind]
    exact find_map_replace hv m (any_key_of_alFind hfind)

lemma find_map_replace_ne {α : Type} {key : α → String} {k k2 : String} {v : α}
    (hv : key v = k) (hne : ¬ k2 = k) (m : List α) :
    (m.map (fun a => if key a == k then v else a)).find? (fun a => key a == k2) =
      m.find? (fun a => key a == k2) := by
  have hne2 : ¬ k = k2 := fun h => hne h.symm
  induction m with
  | nil => simp
  | cons a t ih =>
    by_cases ha : (key a == k) = true
    · have hak : key a = k := eq_of_beq ha
      have ha2 : (key a == k2) = false := by simp [hak, hne2]
      have hv2 : (key v == k2) = false := by simp [hv, hne2]
      simp only [List.map_cons, if_pos ha]
      simp only [List.find?_cons, ha2, hv2]
      exact ih
    · simp only [List.map_cons, if_neg ha]
      by_cases ha2 : (key a == k2) = true
      · simp only [List.find?_cons, ha2]
      · have ha2f : (key a == k2) = false := by simpa using ha2
        simp only [List.find?_cons, ha2f]
        exact ih

lemma alFind_alSet_ne {α : Type} {key : α → String} (m : List α) {k k2 : String} {v : α}
    (hv : key v = k) (hne : ¬ k2 = k) : alFind key (alSet key m k v) k2 = alFind key m k2 := by
  rcases hfind : alFind key m k with _ | w
  · rw [alSet_of_absent v hfind]
    unfold alFind
    rw [List.find?_append]
    have hne2 : ¬ k = k2 := fun h => hne h.symm
    have hv2 : (key v == k2) = false := by simp [hv, hne2]
    simp [List.find?_cons, hv2]
  · rw [alSet_of_present v hfind]
    exact find_map_replace_ne hv hne m

lemma length_alSet_present {α : Type} {key : α → String} {m : List α} {k : String} {w : α}
    (v : α) (h : alFind key m k = some w) : (alSet key m k v).length = m.length := by
  rw [alSet_of_present v h, List.length_map]

lemma map_key_alSet_present {α : Type} {key : α → String} {m : List α} {k : String} {w v : α}
    (hv : key v = k) (h : alFind key m k = some w) :
    (alSet key m k v).map key = m.map key := by
  rw [alSet_of_present v h, List.map_map]
  refine List.map_congr_left ?_
  intro a _
  by_cases ha : (key a == k) = true
  · simp only [Function.comp_apply, if_pos ha, hv]
    exact (eq_of_beq ha).symm
  · simp only [Function.comp_apply, if_neg ha]

lemma mem_alDelete {α : Type} {key : α → String} {m : List α} {k : String} {a : α} :
    a ∈ alDelete key m k ↔ a ∈ m ∧ ¬ key a = k := by
  simp [alDelete, List.mem_filter]

lemma map_key_alDelete_sublist {α : Type} (key : α → String) (m : List α) (k : String) :
    ((alDelete key m k).map key).Sublist (m.map key) :=
  (List.filter_sublist m).map key

lemma length_alDelete_of_mem {α : Type} {key : α → String} {m : List α} {k : String} {w : α}
    (hnd : (m.map key).Nodup) (hw : w ∈ m) (hk : key w = k) :
    (alDelete key m k).length + 1 = m.length := by
  induction m with
  | nil => simp at hw
  | cons a t ih =>
    simp only [List.map_cons, List.nodup_cons] at hnd
    rcases List.mem_cons.mp hw with rfl | hwt
    · have hdel : alDelete key (w :: t) k = t := by
        unfold alDelete
        rw [List.filter_cons_of_neg (by simp [hk])]
        rw [List.filter_eq_self]
        intro b hb
        simp only [Bool.not_eq_eq_eq_not, Bool.not_true, beq_eq_false_iff_ne, ne_eq]
        intro hbk
        exact hnd.1 (by rw [hk, ← hbk]; exact List.mem_map_of_mem key hb)
      rw [hdel]
      simp
    · have hak : ¬ key a = k := by
        intro hak
        exact hnd.1 (by rw [hak, ← hk]; exact List.mem_map_of_mem key hwt)
      have hstep : alDelete key (a :: t) k = a :: alDelete key t k := by
        unfold alDelete
        rw [List.filter_cons_of_pos (by simp [hak])]
      rw [hstep]
      simp only [List.length_cons]
      rw [ih hnd.2 hwt]

lemma alFind_map_pres {α : Type} {key : α → String} (m : List α) (k : String) (f : α → α)
    (hf : ∀ a, key (f a) = key a) :
    alFind key (m.map f) k = (alFind key m k).map f := by
  unfold alFind
  rw [List.find?_map]
  refine congrArg (Option.map f) ?_
  refine congrArg (fun p => List.find? p m) ?_
  funext a
  simp [Function.comp, hf]

lemma map_key_map_pres {α : Type} {key : α → String} (m : List α) (f : α → α)
    (hf : ∀ a, key (f a) = key a) :
    (m.map f).map key = m.map key := by
  rw [List.map_map]
  refine List.map_congr_left ?_
  intro a _
  simp [Function.comp, hf]

/-! Helper facts about the physics kernel. -/

lemma distance_add (a v : Vector2D) :
    distance a (vectorAdd a v) = Real.sqrt (v.x * v.x + v.y * v.y) := by
  unfold distance vectorAdd
  simp only
  ring_nf

lemma distance_self (a : Vector2D) : distance a a = 0 := by
  unfold distance
  simp

lemma sqrt_hundred : Real.sqrt 100 = 10 := by
  rw [show (100 : ℝ) = 10 ^ 2 by norm_num]
  exact Real.sqrt_sq (by norm_num)

/-- C7 (counterexample): a projectile position with x exactly equal to
`MAP_WIDTH - PROJECTILE_RADIUS` (y well inside the map) is NOT reported as
a wall hit, because `checkWallCollision` compares strictly; this refutes
the claim that such a position counts as a wall hit. -/
theorem checkWallCollision_boundary_cex :
    ¬ checkWallCollision ⟨MAP_WIDTH - PROJECTILE_RADIUS, 300⟩ PROJECTILE_RADIUS := by
  unfold checkWallCollision MAP_WIDTH MAP_HEIGHT PROJECTILE_RADIUS
  push_neg
  norm_num

/-- C7 (amended): for every projectile position whose x coordinate equals
exactly `MAP_WIDTH` minus the radius, with y within bounds and a radius of
at most 400, the wall-collision test reports NO hit: the comparisons are
strict, so a hit requires going strictly beyond the boundary. -/
theorem checkWallCollision_strict_boundary (pos : Vector2D) (radius : ℝ)
    (hx : pos.x = MAP_WIDTH - radius)
    (hy1 : radius ≤ pos.y) (hy2 : pos.y ≤ MAP_HEIGHT - radius) :
    ¬ checkWallCollision pos radius := by
  unfold checkWallCollision MAP_WIDTH MAP_HEIGHT at *
  push_neg
  refine ⟨by linarith, by linarith, by linarith, by linarith⟩

/-- C7 witness: the amended theorem applied at the concrete boundary
position x = 795 = 800 - 5, y = 300, radius 5. -/
theorem checkWallCollision_strict_boundary_witness :
    (⟨795, 300⟩ : Vector2D).x = MAP_WIDTH - 5 ∧ ¬ checkWallCollision ⟨795, 300⟩ 5 :=
  ⟨by norm_num [MAP_WIDTH],
   checkWallCollision_strict_boundary ⟨795, 300⟩ 5 (by norm_num [MAP_WIDTH])
     (by norm_num) (by norm_num [MAP_HEIGHT])⟩

/-- C9 (amended): a projectile created by the engine moves exactly
`PROJECTILE_SPEED` = 10 units per tick for every angle, hence exactly
10000/33 (about 303) units per second at the 33 ms tick interval — not
approximately 400. -/
theorem projectile_speed_per_second (position : Vector2D) (angle : ℝ)
    (playerId newId : String) :
    perTickSpeed position angle playerId newId = PROJECTILE_SPEED ∧
    perTickSpeed position angle playerId newId * ticksPerSecond = 10000 / 33 := by
  have h10 : perTickSpeed position angle playerId newId = 10 := by
    unfold perTickSpeed createProjectile updateProjectile
    rw [distance_add]
    unfold vectorMultiply vectorFromAngle PROJECTILE_SPEED
    simp only
    have harg : Real.cos angle * 10 * (Real.cos angle * 10) +
        Real.sin angle * 10 * (Real.sin angle * 10) = 100 := by
      have hcs := Real.sin_sq_add_cos_sq angle
      nlinarith [hcs]
    rw [harg, sqrt_hundred]
  refine ⟨?_, ?_⟩
  · rw [h10]; norm_num [PROJECTILE_SPEED]
  · rw [h10]; norm_num [ticksPerSecond, GAME_UPDATE_INTERVAL]

/-- C9 (counterexample): at angle 0 the per-tick displacement magnitude
times the tick rate is exactly 10000/33, which is more than 80 units per
second (20 percent) away from the claimed approximately-400; this refutes
the claim that the projectile moves at approximately 400 units per
second. -/
theorem projectile_speed_cex :
    perTickSpeed ⟨0, 0⟩ 0 "o" "p" * ticksPerSecond = 10000 / 33 ∧
    ¬ |(10000 : ℝ) / 33 - 400| ≤ 80 := by
  refine ⟨?_, ?_⟩
  · have h10 : perTickSpeed ⟨0, 0⟩ 0 "o" "p" = 10 := by
      unfold perTickSpeed createProjectile updateProjectile
      rw [distance_add]
      unfold vectorMultiply vectorFromAngle PROJECTILE_SPEED
      simp only [Real.cos_zero, Real.sin_zero]
      norm_num [sqrt_hundred]
    rw [h10]
    norm_num [ticksPerSecond, GAME_UPDATE_INTERVAL]
  · rw [abs_of_neg (by norm_num)]
    norm_num

/-- C8: an updatePlayer request arriving strictly less than
`MIN_UPDATE_INTERVAL` (50 ms) after the player's last accepted update is
silently dropped: the whole server state (player position, rotation, the
per-player timestamp, everything) is unchanged, and no event is
emitted. -/
theorem updatePlayer_rate_limited (st : ServerState) (socketId roomId : String)
    (position : Vector2D) (rotation : ℝ) (now : ℤ) (entry : String × GameRoom)
    (stamp : String × ℤ)
    (hroom : alFind Prod.fst st.rooms roomId = some entry)
    (hstamp : alFind Prod.fst entry.2.lastPlayerUpdates socketId = some stamp)
    (hrate : now - stamp.2 < MIN_UPDATE_INTERVAL) :
    updatePlayer st socketId roomId position rotation now = (st, []) := by
  simp only [updatePlayer, hroom, hstamp, Option.map_some', Option.getD_some]
  rw [if_pos hrate]

/-- C8 witness: the rate-limit theorem applied at a concrete update
arriving 20 ms after the last accepted one. -/
theorem updatePlayer_rate_limited_witness :
    ((120 : ℤ) - 100 < MIN_UPDATE_INTERVAL) ∧
    updatePlayer stW8 "s" "r" ⟨3, 4⟩ 1 120 = (stW8, []) :=
  ⟨by decide,
   updatePlayer_rate_limited stW8 "s" "r" ⟨3, 4⟩ 1 120 ("r", roomW8) ("s", 100) rfl rfl
     (by decide)⟩

/-- C5: a startGame request succeeds — the room status is set to playing
and exactly the gameStarted broadcast is emitted — if and only if the room
exists, the requester id equals the room creatorId, and the room has at
least 2 players; otherwise the server state is unchanged and a single
domain error event is emitted. -/
theorem startGame_spec (st : ServerState) (socketId roomId : String) :
    ((∃ entry, alFind Prod.fst st.rooms roomId = some entry ∧
        socketId = entry.2.creatorId ∧ 2 ≤ entry.2.players.length) →
      ∃ entry, alFind Prod.fst st.rooms roomId = some entry ∧
        (startGame st socketId roomId).1.rooms =
          alSet Prod.fst st.rooms roomId (roomId, { entry.2 with status := Status.playing }) ∧
        (startGame st socketId roomId).1.recentlyDisconnected = st.recentlyDisconnected ∧
        alFind Prod.fst (startGame st socketId roomId).1.rooms roomId =
          some (roomId, { entry.2 with status := Status.playing }) ∧
        (startGame st socketId roomId).2 = [Event.gameStarted]) ∧
    ((¬ ∃ entry, alFind Prod.fst st.rooms roomId = some entry ∧
        socketId = entry.2.creatorId ∧ 2 ≤ entry.2.players.length) →
      (startGame st socketId roomId).1 = st ∧
      ∃ msg, (startGame st socketId roomId).2 = [Event.errorMsg msg]) := by
  constructor
  · rintro ⟨entry, he, hcr, hp⟩
    have hbne : ¬ ((socketId != entry.2.creatorId) = true) := by simp [hcr]
    have hlt : ¬ entry.2.players.length < 2 := by omega
    refine ⟨entry, he, ?_, ?_, ?_, ?_⟩ <;>
      simp only [startGame, he] <;> rw [if_neg hbne, if_neg hlt]
    · exact alFind_alSet_self st.rooms rfl
  · intro hn
    rcases he : alFind Prod.fst st.rooms roomId with _ | entry
    · simp only [startGame, he]
      exact ⟨by trivial, "Room not found", by trivial⟩
    · by_cases hcr : socketId = entry.2.creatorId
      · by_cases hlt : entry.2.players.length < 2
        · have hbne : ¬ ((socketId != entry.2.creatorId) = true) := by simp [hcr]
          simp only [startGame, he]
          rw [if_neg hbne, if_pos hlt]
          exact ⟨by trivial, "Need at least 2 players to start", by trivial⟩
        · exact absurd ⟨entry, he, hcr, by omega⟩ hn
      · have hbne : (socketId != entry.2.creatorId) = true := by simp [bne_iff_ne, hcr]
        simp only [startGame, he]
        rw [if_pos hbne]
        exact ⟨by trivial, "Only the room creator can start the game", by trivial⟩

/-- C5 witness: the startGame characterization applied at a concrete
2-player room whose creator starts the game. -/
theorem startGame_spec_witness :
    (∃ entry, alFind Prod.fst stW5.rooms "r" = some entry ∧
      "a" = entry.2.creatorId ∧ 2 ≤ entry.2.players.length) ∧
    (startGame stW5 "a" "r").2 = [Event.gameStarted] := by
  have hyp : ∃ entry, alFind Prod.fst stW5.rooms "r" = some entry ∧
      "a" = entry.2.creatorId ∧ 2 ≤ entry.2.players.length :=
    ⟨("r", roomW5), rfl, rfl, by decide⟩
  obtain ⟨entry, _, _, _, _, hev⟩ := (startGame_spec stW5 "a" "r").1 hyp
  exact ⟨hyp, hev⟩

/-- C10: an accepted updatePlayer request changes only the requesting
player's position and rotation: that player keeps id, username, health and
creator flag, every other player is looked up unchanged, and the room's
projectiles, status and creatorId are unchanged. -/
theorem updatePlayer_frame (st : ServerState) (socketId roomId : String)
    (position : Vector2D) (rotation : ℝ) (now : ℤ) (entry : String × GameRoom)
    (player : Player)
    (hroom : alFind Prod.fst st.rooms roomId = some entry)
    (hrate : ¬ (now - ((alFind Prod.fst entry.2.lastPlayerUpdates socketId).map Prod.snd).getD 0 <
      MIN_UPDATE_INTERVAL))
    (hplayer : alFind Player.id entry.2.players socketId = some player) :
    ∃ room2 : GameRoom,
      alFind Prod.fst (updatePlayer st socketId roomId position rotation now).1.rooms roomId =
        some (roomId, room2) ∧
      alFind Player.id room2.players socketId =
        some ⟨player.id, player.username, position, rotation, player.health, player.isCreator⟩ ∧
      (∀ pid, ¬ pid = socketId →
        alFind Player.id room2.players pid = alFind Player.id entry.2.players pid) ∧
      room2.projectiles = entry.2.projectiles ∧
      room2.status = entry.2.status ∧
      room2.creatorId = entry.2.creatorId := by
  have hpid : player.id = socketId := key_of_alFind hplayer
  refine ⟨{ entry.2 with
      players := alSet Player.id entry.2.players socketId
        { player with position := position, rotation := rotation },
      lastPlayerUpdates := alSet Prod.fst entry.2.lastPlayerUpdates socketId (socketId, now),
      lastActivity := now }, ?_, ?_, ?_, rfl, rfl, rfl⟩
  · simp only [updatePlayer, hroom]
    rw [if_neg hrate]
    simp only [hplayer]
    exact alFind_alSet_self st.rooms rfl
  · exact alFind_alSet_self entry.2.players hpid
  · intro pid hne
    exact alFind_alSet_ne entry.2.players hpid hne

/-- C10 witness: the frame theorem applied at a concrete accepted update
(arriving 100 ms after the last accepted one). -/
theorem updatePlayer_frame_witness :
    (¬ ((200 : ℤ) - ((alFind Prod.fst roomW8.lastPlayerUpdates "s").map Prod.snd).getD 0 <
      MIN_UPDATE_INTERVAL)) ∧
    ∃ room2 : GameRoom,
      alFind Prod.fst (updatePlayer stW8 "s" "r" ⟨5, 6⟩ 2 200).1.rooms "r" =
        some ("r", room2) ∧
      alFind Player.id room2.players "s" = some ⟨"s", "u", ⟨5, 6⟩, 2, 100, true⟩ ∧
      (∀ pid, ¬ pid = "s" →
        alFind Player.id room2.players pid = alFind Player.id roomW8.players pid) ∧
      room2.projectiles = roomW8.projectiles ∧
      room2.status = roomW8.status ∧
      room2.creatorId = roomW8.creatorId :=
  ⟨by decide,
   updatePlayer_frame stW8 "s" "r" ⟨5, 6⟩ 2 200 ("r", roomW8)
     ⟨"s", "u", ⟨1, 2⟩, 0, 100, true⟩ rfl (by decide) rfl⟩

/-! Helper facts about the joinRoom handler. -/

lemma demote_isCreator_false {l : List Player} {q : Player}
    (hq : q ∈ l.map (fun p => if p.isCreator then { p with isCreator := false } else p)) :
    q.isCreator = false := by
  obtain ⟨b, _, hbq⟩ := List.mem_map.mp hq
  by_cases hb : b.isCreator
  · rw [if_pos hb] at hbq
    rw [← hbq]
  · rw [if_neg hb] at hbq
    rw [← hbq]
    simpa using hb

lemma demote_id_pres (p : Player) :
    Player.id (if p.isCreator then { p with isCreator := false } else p) = p.id := by
  by_cases hb : p.isCreator
  · rw [if_pos hb]
  · rw [if_neg hb]

/-- C4: a join by a username recorded in recentlyDisconnected with
wasCreator true, into the recorded room, is accepted despite any username
conflict: the room's creatorId becomes the joining connection id, the
rejoining player is present with isCreator true, every other player ends
up demoted (isCreator false), and the two acceptance events are emitted. -/
theorem joinRoom_reconnect_creator (st : ServerState) (socketId roomId username : String)
    (now : ℤ) (spawn : Vector2D) (entry : String × GameRoom) (d : String × DisconnectInfo)
    (hcreate : ¬ roomId = "create")
    (hroom : alFind Prod.fst st.rooms roomId = some entry)
    (hd : alFind Prod.fst st.recentlyDisconnected username = some d)
    (hd1 : d.2.roomId = roomId)
    (hd2 : d.2.wasCreator = true) :
    ∃ room2 : GameRoom,
      alFind Prod.fst (joinRoom st socketId roomId username now spawn).1.rooms roomId =
        some (roomId, room2) ∧
      room2.creatorId = socketId ∧
      alFind Player.id room2.players socketId =
        some ⟨socketId, username, spawn, 0, 100, true⟩ ∧
      (∀ p ∈ room2.players, ¬ p.id = socketId → p.isCreator = false) ∧
      ∃ ps, (joinRoom st socketId roomId username now spawn).2 =
        [Event.roomJoined socketId ps true,
         Event.playerJoined ⟨socketId, username, spawn, 0, 100, true⟩] := by
  have hisRec : (d.2.roomId == roomId) = true := by simp [hd1]
  simp only [joinRoom, if_neg hcreate, hroom, hd, hisRec, hd2, Bool.not_true,
    Bool.and_false, Bool.false_eq_true, if_false, if_true, Bool.and_self]
  refine ⟨_, alFind_alSet_self st.rooms rfl, rfl, alFind_alSet_self _ rfl, ?_, _, rfl⟩
  intro p hp hpid
  rcases mem_alSet hp with rfl | hmem
  · exact absurd rfl hpid
  · exact demote_isCreator_false hmem

/-- C2 (amended): a joinRoom request naming an existing room whose status
is playing, with a fresh username that does not qualify as a reconnection,
is ACCEPTED — the handler performs no room-status check, so the player is
appended to the players mapping, the status stays playing, and the two
acceptance events are emitted (no error). -/
theorem joinRoom_no_late_join_check (st : ServerState) (socketId roomId username : String)
    (now : ℤ) (spawn : Vector2D) (entry : String × GameRoom)
    (hcreate : ¬ roomId = "create")
    (hroom : alFind Prod.fst st.rooms roomId = some entry)
    (hstatus : entry.2.status = Status.playing)
    (hrd : alFind Prod.fst st.recentlyDisconnected username = none)
    (hname : entry.2.players.find? (fun p => p.username == username) = none)
    (hfresh : alFind Player.id entry.2.players socketId = none) :
    ∃ room2 : GameRoom,
      alFind Prod.fst (joinRoom st socketId roomId username now spawn).1.rooms roomId =
        some (roomId, room2) ∧
      room2.status = Status.playing ∧
      room2.players = entry.2.players ++ [⟨socketId, username, spawn, 0, 100, false⟩] ∧
      room2.creatorId = entry.2.creatorId ∧
      ∃ ps, (joinRoom st socketId roomId username now spawn).2 =
        [Event.roomJoined socketId ps false,
         Event.playerJoined ⟨socketId, username, spawn, 0, 100, false⟩] := by
  simp only [joinRoom, if_neg hcreate, hroom, hrd, hname, Bool.false_and, Bool.and_false,
    Bool.not_false, Bool.false_eq_true, if_false]
  refine ⟨_, alFind_alSet_self st.rooms rfl, hstatus, ?_, rfl, _, rfl⟩
  exact alSet_of_absent _ hfresh

/-- C2 (counterexample): joining the playing room `roomC2` with the fresh
username bob is accepted — the players mapping grows from 1 to 2 entries
and the roomJoined/playerJoined events (no error) are emitted — refuting
the claim that such a join is rejected with an error and the players
mapping left unchanged. -/
theorem joinRoom_playing_accepted_cex :
    roomC2.status = Status.playing ∧
    roomC2.players.length = 1 ∧
    (∃ room2, alFind Prod.fst (joinRoom stC2 "s2" "r" "bob" 5 ⟨100, 100⟩).1.rooms "r" =
        some ("r", room2) ∧ room2.players.length = 2) ∧
    (joinRoom stC2 "s2" "r" "bob" 5 ⟨100, 100⟩).2 =
      [Event.roomJoined "s2"
        [⟨"s1", "alice", ⟨400, 300⟩, 0, 100, true⟩, ⟨"s2", "bob", ⟨100, 100⟩, 0, 100, false⟩]
        false,
       Event.playerJoined ⟨"s2", "bob", ⟨100, 100⟩, 0, 100, false⟩] :=
  ⟨rfl, rfl,
   ⟨⟨"r", [⟨"s1", "alice", ⟨400, 300⟩, 0, 100, true⟩, ⟨"s2", "bob", ⟨100, 100⟩, 0, 100, false⟩],
     [], Status.playing, "s1", 5, []⟩, rfl, rfl⟩,
   rfl⟩

/-- C2 witness: the amended theorem applied at the concrete playing room
`roomC2` with the fresh username bob. -/
theorem joinRoom_no_late_join_check_witness :
    roomC2.status = Status.playing ∧
    ∃ room2 : GameRoom,
      alFind Prod.fst (joinRoom stC2 "s2" "r" "bob" 5 ⟨100, 100⟩).1.rooms "r" =
        some ("r", room2) ∧
      room2.status = Status.playing ∧
      room2.players = roomC2.players ++ [⟨"s2", "bob", ⟨100, 100⟩, 0, 100, false⟩] ∧
      room2.creatorId = roomC2.creatorId ∧
      ∃ ps, (joinRoom stC2 "s2" "r" "bob" 5 ⟨100, 100⟩).2 =
        [Event.roomJoined "s2" ps false,
         Event.playerJoined ⟨"s2", "bob", ⟨100, 100⟩, 0, 100, false⟩] :=
  ⟨rfl,
   joinRoom_no_late_join_check stC2 "s2" "r" "bob" 5 ⟨100, 100⟩ ("r", roomC2)
     (by decide) rfl rfl rfl rfl rfl⟩

/-- C4 witness: the reconnection theorem applied at the concrete state
`stC4` where alice rejoins on a new connection s9. -/
theorem joinRoom_reconnect_creator_witness :
    alFind Prod.fst stC4.recentlyDisconnected "alice" = some ("alice", ⟨"r", 0, "alice", true⟩) ∧
    ∃ room2 : GameRoom,
      alFind Prod.fst (joinRoom stC4 "s9" "r" "alice" 7 ⟨50, 50⟩).1.rooms "r" =
        some ("r", room2) ∧
      room2.creatorId = "s9" ∧
      alFind Player.id room2.players "s9" = some ⟨"s9", "alice", ⟨50, 50⟩, 0, 100, true⟩ ∧
      (∀ p ∈ room2.players, ¬ p.id = "s9" → p.isCreator = false) ∧
      ∃ ps, (joinRoom stC4 "s9" "r" "alice" 7 ⟨50, 50⟩).2 =
        [Event.roomJoined "s9" ps true,
         Event.playerJoined ⟨"s9", "alice", ⟨50, 50⟩, 0, 100, true⟩] :=
  ⟨rfl,
   joinRoom_reconnect_creator stC4 "s9" "r" "alice" 7 ⟨50, 50⟩ ("r", roomC4)
     ("alice", ⟨"r", 0, "alice", true⟩) (by decide) rfl rfl rfl rfl⟩

/-! Helper facts for the creator invariant. -/

lemma self_mem_alSet {α : Type} {key : α → String} (m : List α) {k : String} {v : α} :
    v ∈ alSet key m k v := by
  rcases hfind : alFind key m k with _ | w
  · rw [alSet_of_absent v hfind]
    exact List.mem_append_right _ (by simp)
  · rw [alSet_of_present v hfind]
    refine List.mem_map.mpr ⟨w, mem_of_alFind hfind, ?_⟩
    rw [if_pos (by simp [key_of_alFind hfind])]

lemma creatorInv_append_fresh {room : GameRoom} {socketId : String} {newPlayer : Player}
    {now : ℤ} (hinv : creatorInv room) (hne : ¬ room.players = [])
    (hfresh : alFind Player.id room.players socketId = none) :
    creatorInv { room with
      players := alSet Player.id room.players socketId newPlayer,
      lastActivity := now } := by
  intro _
  obtain ⟨c, hc, hcid, hcr⟩ := hinv hne
  refine ⟨c, ?_, hcid, hcr⟩
  rw [alSet_of_absent _ hfresh]
  exact List.mem_append_left _ hc

/-- C1 (amended): the creator invariant — creatorId is the id of a present
player marked isCreator whenever the players mapping is non-empty — is
established by createRoom, preserved by disconnect, and preserved by
joinRoom provided the joining connection is not already a player and the
room is non-empty unless the join is a creator reconnection. (It is NOT
preserved by the game-tick dead-player removal, nor by a join into an
emptied room: see the counterexample.) -/
theorem creatorInv_preservation :
    (∀ (st : ServerState) (socketId username : String) (now : ℤ) (newRoomId : String),
      allRoomsInv st → allRoomsInv (createRoom st socketId username now newRoomId).1) ∧
    (∀ (st : ServerState) (socketId roomId username : String) (now : ℤ) (spawn : Vector2D),
      allRoomsInv st → joinOk st socketId roomId username →
      allRoomsInv (joinRoom st socketId roomId username now spawn).1) ∧
    (∀ (st : ServerState) (socketId : String) (socketRoomId : Option String) (now : ℤ),
      allRoomsInv st → allRoomsInv (disconnectHandler st socketId socketRoomId now).1) := by
  refine ⟨?_, ?_, ?_⟩
  · -- createRoom
    intro st socketId username now newRoomId hinv
    unfold createRoom
    split
    · exact hinv
    · intro r hr
      rcases mem_alSet hr with rfl | hmem
      · intro _
        exact ⟨⟨socketId, username, ⟨400, 300⟩, 0, 100, true⟩, by simp, rfl, rfl⟩
      · exact hinv r hmem
  · -- joinRoom
    intro st socketId roomId username now spawn hinv hok
    by_cases hcreate : roomId = "create"
    · simp only [joinRoom, if_pos hcreate]
      exact hinv
    · rcases hroom : alFind Prod.fst st.rooms roomId with _ | entry
      · simp only [joinRoom, if_neg hcreate, hroom]
        exact hinv
      · obtain ⟨hfresh, hcase⟩ := hok entry hroom
        rcases hdp : alFind Prod.fst st.recentlyDisconnected username with _ | d
        · have hne : ¬ entry.2.players = [] := by
            rcases hcase with h | ⟨d2, hd2, _⟩
            · exact h
            · rw [hdp] at hd2
              exact absurd hd2 (by simp)
          simp only [joinRoom, if_neg hcreate, hroom, hdp, Bool.not_false, Bool.and_true,
            Bool.false_and, Bool.and_false, if_false]
          split
          · exact hinv
          · intro r hr
            rcases mem_alSet hr with rfl | hmem
            · exact creatorInv_append_fresh (hinv entry (mem_of_alFind hroom)) hne hfresh
            · exact hinv r hmem
        · by_cases hrid : d.2.roomId = roomId
          · have hb : (d.2.roomId == roomId) = true := by simp [hrid]
            cases hwc : d.2.wasCreator with
            | false =>
              have hne : ¬ entry.2.players = [] := by
                rcases hcase with h | ⟨d2, hd2, _, hwc2⟩
                · exact h
                · rw [hdp] at hd2
                  obtain rfl := Option.some.inj hd2
                  rw [hwc] at hwc2
                  exact absurd hwc2 (by simp)
              simp only [joinRoom, if_neg hcreate, hroom, hdp, hb, hwc, Bool.and_false,
                Bool.not_true, if_false, if_true]
              intro r hr
              rcases mem_alSet hr with rfl | hmem
              · exact creatorInv_append_fresh (hinv entry (mem_of_alFind hroom)) hne hfresh
              · exact hinv r hmem
            | true =>
              simp only [joinRoom, if_neg hcreate, hroom, hdp, hb, hwc, Bool.and_self,
                Bool.not_true, Bool.and_false, if_false, if_true]
              intro r hr
              rcases mem_alSet hr with rfl | hmem
              · intro _
                exact ⟨⟨socketId, username, spawn, 0, 100, true⟩, self_mem_alSet _, rfl, rfl⟩
              · exact hinv r hmem
          · have hb : (d.2.roomId == roomId) = false := by simp [hrid]
            have hne : ¬ entry.2.players = [] := by
              rcases hcase with h | ⟨d2, hd2, hrid2, _⟩
              · exact h
              · rw [hdp] at hd2
                obtain rfl := Option.some.inj hd2
                exact absurd hrid2 hrid
            simp only [joinRoom, if_neg hcreate, hroom, hdp, hb, Bool.not_false, Bool.and_true,
              Bool.false_and, Bool.and_false, if_false]
            split
            · exact hinv
            · intro r hr
              rcases mem_alSet hr with rfl | hmem
              · exact creatorInv_append_fresh (hinv entry (mem_of_alFind hroom)) hne hfresh
              · exact hinv r hmem
  · -- disconnect
    intro st socketId socketRoomId now hinv
    rcases socketRoomId with _ | roomId
    · exact hinv
    · rcases hroom : alFind Prod.fst st.rooms roomId with _ | entry
      · simp only [disconnectHandler, hroom]
        exact hinv
      · rcases hpl : alFind Player.id entry.2.players socketId with _ | player
        · simp only [disconnectHandler, hroom, hpl]
          exact hinv
        · simp only [disconnectHandler, hroom, hpl]
          split
          · split
            · -- creator left, nonempty remainder: head is promoted
              intro r hr
              rcases mem_alSet hr with rfl | hmem
              · intro _
                refine ⟨_, List.mem_cons_self _ _, rfl, rfl⟩
              · exact hinv r hmem
            · -- unreachable guard shape: remainder empty
              rename_i heq
              intro r hr
              rcases mem_alSet hr with rfl | hmem
              · intro hne2
                exact absurd heq hne2
              · exact hinv r hmem
          · -- non-creator left (or remainder empty)
            rename_i hcond
            intro r hr
            rcases mem_alSet hr with rfl | hmem
            · intro hne2
              by_cases hcr : socketId = entry.2.creatorId
              · have hlen : ¬ 0 < (alDelete Player.id entry.2.players socketId).length := by
                  intro h2
                  apply hcond
                  rw [show (socketId == entry.2.creatorId) = true by simp [hcr],
                      decide_eq_true h2]
                  rfl
                have hdel : alDelete Player.id entry.2.players socketId = [] := by
                  rcases h : alDelete Player.id entry.2.players socketId with _ | ⟨a, t⟩
                  · rfl
                  · rw [h] at hlen
                    simp at hlen
                exact absurd hdel hne2
              · have hne0 : ¬ entry.2.players = [] :=
                  List.ne_nil_of_mem (mem_of_alFind hpl)
                obtain ⟨c, hc, hcid, hcr2⟩ := hinv entry (mem_of_alFind hroom) hne0
                refine ⟨c, ?_, hcid, hcr2⟩
                refine mem_alDelete.mpr ⟨hc, ?_⟩
                intro hcs
                exact hcr (by rw [← hcs, hcid])
            · exact hinv r hmem

/-- C1 (counterexample): a fresh join into the emptied room `roomC1` — one
of the operations the claim quantifies over — yields a room whose players
mapping is non-empty yet contains NO player whose id equals creatorId with
isCreator true: the handler neither reassigns creatorId nor promotes the
joiner, refuting the claimed invariant. (The tick dead-player removal
breaks the invariant the same way when the creator dies.) -/
theorem joinRoom_breaks_creatorInv_cex :
    allRoomsInv stC1 ∧
    ∃ room2, alFind Prod.fst (joinRoom stC1 "s2" "r" "bob" 5 ⟨100, 100⟩).1.rooms "r" =
        some ("r", room2) ∧
      ¬ room2.players = [] ∧
      ¬ ∃ p ∈ room2.players, p.id = room2.creatorId ∧ p.isCreator = true := by
  refine ⟨?_, ⟨"r", [⟨"s2", "bob", ⟨100, 100⟩, 0, 100, false⟩], [], Status.waiting, "gone", 5, []⟩,
    rfl, by simp, ?_⟩
  · intro r hr
    rcases List.mem_singleton.mp hr with rfl
    intro hne
    exact absurd rfl hne
  · rintro ⟨p, hp, hpid, hpc⟩
    rcases List.mem_singleton.mp hp with rfl
    simp at hpid

/-- C1 witness: the preservation theorem applied at the empty server state
for a concrete createRoom call. -/
theorem creatorInv_preservation_witness :
    allRoomsInv ⟨[], []⟩ ∧
    allRoomsInv (createRoom ⟨[], []⟩ "s1" "alice" 0 "r1").1 :=
  ⟨by intro r hr; simp at hr,
   creatorInv_preservation.1 ⟨[], []⟩ "s1" "alice" 0 "r1" (by intro r hr; simp at hr)⟩

/-! Helper facts about the ordered player scan. -/

lemma scanPlayers_of_forall_not (projectile : Projectile) (ps : List Player)
    (h : ∀ q ∈ ps, ¬ playerHit projectile q) : scanPlayers projectile ps = ⟨false, none⟩ := by
  induction ps with
  | nil => simp [scanPlayers]
  | cons p rest ih =>
    have hp := h p (List.mem_cons_self p rest)
    simp only [scanPlayers]
    by_cases hid : p.id = projectile.playerId
    · rw [if_pos hid]
      exact ih fun q hq => h q (List.mem_cons_of_mem p hq)
    · have hd : ¬ distance projectile.position p.position < PLAYER_RADIUS + PROJECTILE_RADIUS := by
        intro hdist
        exact hp ⟨hid, hdist⟩
      rw [if_neg hid, if_neg hd]
      exact ih fun q hq => h q (List.mem_cons_of_mem p hq)

lemma scanPlayers_first (projectile : Projectile) (l1 : List Player) (q : Player)
    (l2 : List Player) (hq : playerHit projectile q)
    (hl1 : ∀ r ∈ l1, ¬ playerHit projectile r) :
    scanPlayers projectile (l1 ++ q :: l2) = ⟨true, some q.id⟩ := by
  induction l1 with
  | nil =>
    simp only [List.nil_append, scanPlayers]
    rw [if_neg hq.1, if_pos hq.2]
  | cons r t ih =>
    have hr := hl1 r (List.mem_cons_self r t)
    simp only [List.cons_append, scanPlayers]
    by_cases hid : r.id = projectile.playerId
    · rw [if_pos hid]
      exact ih fun a ha => hl1 a (List.mem_cons_of_mem r ha)
    · have hd : ¬ distance projectile.position r.position < PLAYER_RADIUS + PROJECTILE_RADIUS := by
        intro hdist
        exact hr ⟨hid, hdist⟩
      rw [if_neg hid, if_neg hd]
      exact ih fun a ha => hl1 a (List.mem_cons_of_mem r ha)

/-- C6: collision resolution first tests the wall with the projectile's
own radius (outside means a wall hit with no player); otherwise it scans
the given player list in order, skipping the owner, and returns the first
player whose circle strictly overlaps the projectile's circle; if nobody
overlaps the result is no hit, and in the tick filter such a projectile is
kept (appended to the surviving set) for the next tick. -/
theorem checkProjectileCollision_spec (projectile : Projectile) (players : List Player) :
    (checkWallCollision projectile.position PROJECTILE_RADIUS →
      checkProjectileCollision projectile players = ⟨true, none⟩) ∧
    (¬ checkWallCollision projectile.position PROJECTILE_RADIUS →
      (∀ q l1 l2, players = l1 ++ q :: l2 → playerHit projectile q →
        (∀ r ∈ l1, ¬ playerHit projectile r) →
        checkProjectileCollision projectile players = ⟨true, some q.id⟩) ∧
      ((∀ q ∈ players, ¬ playerHit projectile q) →
        checkProjectileCollision projectile players = ⟨false, none⟩)) ∧
    (∀ (acc : TickAcc) (p0 : Projectile),
      ¬ checkWallCollision (updateProjectile p0).position PROJECTILE_RADIUS →
      (∀ q ∈ acc.players, ¬ playerHit (updateProjectile p0) q) →
      processProjectile acc p0 = { acc with kept := acc.kept ++ [updateProjectile p0] }) := by
  refine ⟨?_, ?_, ?_⟩
  · intro hw
    unfold checkProjectileCollision
    rw [if_pos hw]
  · intro hnw
    constructor
    · intro q l1 l2 hsplit hq hl1
      unfold checkProjectileCollision
      rw [if_neg hnw, hsplit]
      exact scanPlayers_first projectile l1 q l2 hq hl1
    · intro hall
      unfold checkProjectileCollision
      rw [if_neg hnw]
      exact scanPlayers_of_forall_not projectile players hall
  · intro acc p0 hnw hall
    have hcol : checkProjectileCollision (updateProjectile p0) acc.players = ⟨false, none⟩ := by
      unfold checkProjectileCollision
      rw [if_neg hnw]
      exact scanPlayers_of_forall_not _ _ hall
    simp only [processProjectile]
    rw [if_neg hnw, hcol]
    simp

/-- C6 witness: the wall-first branch applied at a concrete out-of-bounds
projectile. -/
theorem checkProjectileCollision_spec_witness :
    checkWallCollision (⟨"q", ⟨900, 300⟩, ⟨0, 0⟩, "o"⟩ : Projectile).position PROJECTILE_RADIUS ∧
    checkProjectileCollision ⟨"q", ⟨900, 300⟩, ⟨0, 0⟩, "o"⟩ [] = ⟨true, none⟩ :=
  ⟨by norm_num [checkWallCollision, MAP_WIDTH, MAP_HEIGHT, PROJECTILE_RADIUS],
   (checkProjectileCollision_spec ⟨"q", ⟨900, 300⟩, ⟨0, 0⟩, "o"⟩ []).1
     (by norm_num [checkWallCollision, MAP_WIDTH, MAP_HEIGHT, PROJECTILE_RADIUS])⟩

/-! Game-over analysis of the tick loop. -/

lemma goFilter_append (a b : List Event) : goFilter (a ++ b) = goFilter a ++ goFilter b := by
  simp [goFilter, List.filter_append]

lemma goFilter_nil : goFilter [] = [] := rfl

lemma goFilter_cons_playerUpdated (a : String) (b : Option Vector2D) (c : Option ℝ)
    (d : Option ℝ) (es : List Event) :
    goFilter (Event.playerUpdated a b c d :: es) = goFilter es := rfl

lemma goFilter_cons_projectileHit (a : String) (b : Option String) (c : Option ℝ)
    (es : List Event) :
    goFilter (Event.projectileHit a b c :: es) = goFilter es := rfl

lemma goFilter_cons_playerDied (a b : String) (es : List Event) :
    goFilter (Event.playerDied a b :: es) = goFilter es := rfl

lemma goFilter_cons_gameOver (u i : String) (es : List Event) :
    goFilter (Event.gameOver u i :: es) = Event.gameOver u i :: goFilter es := rfl

lemma goFilter_cons_projectilesUpdate (ps : List Projectile) (es : List Event) :
    goFilter (Event.projectilesUpdate ps :: es) = goFilter es := rfl

lemma goFilter_cons_projectilesUpdated (ps : List Projectile) (es : List Event) :
    goFilter (Event.projectilesUpdated ps :: es) = goFilter es := rfl

lemma TickInv_step (acc : TickAcc) (proj : Projectile) (h : TickInv acc) :
    TickInv (processProjectile acc proj) := by
  obtain ⟨hnd, hAB⟩ := h
  simp only [processProjectile]
  split
  · -- wall exit: only a projectileHit event is appended
    refine ⟨hnd, ?_⟩
    rcases hAB with ⟨h1, h2, h3⟩ | ⟨h1, h2, u, i, h3, h4⟩
    · refine Or.inl ⟨h1, ?_, h3⟩
      simp only [goFilter_append, goFilter_nil, goFilter_cons_projectileHit, h2,
        List.append_nil]
    · refine Or.inr ⟨h1, h2, u, i, ?_, h4⟩
      simp only [goFilter_append, goFilter_nil, goFilter_cons_projectileHit, h3,
        List.append_nil]
  · split
    · -- a hit was reported
      split
      · -- hit with no player id: projectile removed, nothing else changes
        exact ⟨hnd, hAB⟩
      · rename_i pid heqpid
        split
        · -- hit player not found: nothing changes
          exact ⟨hnd, hAB⟩
        · rename_i hitPlayer hfind
          have hpid : hitPlayer.id = pid := key_of_alFind hfind
          have hv : Player.id { hitPlayer with health := max 0 (hitPlayer.health - 20) } = pid :=
            hpid
          have hids1 : ((alSet Player.id acc.players pid
              { hitPlayer with health := max 0 (hitPlayer.health - 20) }).map Player.id) =
              acc.players.map Player.id :=
            map_key_alSet_present hv hfind
          have hnd1 : ((alSet Player.id acc.players pid
              { hitPlayer with health := max 0 (hitPlayer.health - 20) }).map Player.id).Nodup := by
            rw [hids1]; exact hnd
          have hlen1 : (alSet Player.id acc.players pid
              { hitPlayer with health := max 0 (hitPlayer.health - 20) }).length =
              acc.players.length :=
            length_alSet_present _ hfind
          have hmemv : { hitPlayer with health := max 0 (hitPlayer.health - 20) } ∈
              alSet Player.id acc.players pid
                { hitPlayer with health := max 0 (hitPlayer.health - 20) } :=
            self_mem_alSet _
          have hlen2 : (alDelete Player.id
              (alSet Player.id acc.players pid
                { hitPlayer with health := max 0 (hitPlayer.health - 20) })
              hitPlayer.id).length + 1 =
              (alSet Player.id acc.players pid
                { hitPlayer with health := max 0 (hitPlayer.health - 20) }).length :=
            length_alDelete_of_mem hnd1 hmemv rfl
          have hnd2 : ((alDelete Player.id
              (alSet Player.id acc.players pid
                { hitPlayer with health := max 0 (hitPlayer.health - 20) })
              hitPlayer.id).map Player.id).Nodup :=
            List.Nodup.sublist (map_key_alDelete_sublist _ _ _) hnd1
          split
          · -- lethal damage: the hit player is removed
            split
            · -- exactly one player remains: gameOver and finished
              rename_i hlen
              split
              · rename_i w rest heq
                have hrest : rest = [] := by
                  rw [heq] at hlen
                  simpa using hlen
                refine ⟨hnd2, ?_⟩
                rcases hAB with ⟨h1, h2, h3⟩ | ⟨h1, h2, u, i, h3, h4⟩
                · refine Or.inr ⟨rfl, by dsimp only; omega, w.username, w.id, ?_, ?_⟩
                  · simp only [goFilter_append, goFilter_nil, goFilter_cons_playerUpdated,
                      goFilter_cons_projectileHit, goFilter_cons_playerDied,
                      goFilter_cons_gameOver, h2, List.append_nil, List.nil_append]
                  · intro p hp
                    rw [heq, hrest] at hp
                    rcases List.mem_singleton.mp hp with rfl
                    exact ⟨rfl, rfl⟩
                · exfalso
                  omega
              · rename_i heq
                rw [heq] at hlen
                simp at hlen
            · -- not exactly one player remains
              rename_i hlen
              refine ⟨hnd2, ?_⟩
              rcases hAB with ⟨h1, h2, h3⟩ | ⟨h1, h2, u, i, h3, h4⟩
              · refine Or.inl ⟨h1, ?_, ?_⟩
                · simp only [goFilter_append, goFilter_nil, goFilter_cons_playerUpdated,
                    goFilter_cons_projectileHit, goFilter_cons_playerDied, h2,
                    List.append_nil]
                · dsimp only
                  omega
              · refine Or.inr ⟨h1, ?_, u, i, ?_, ?_⟩
                · dsimp only
                  omega
                · simp only [goFilter_append, goFilter_nil, goFilter_cons_playerUpdated,
                    goFilter_cons_projectileHit, goFilter_cons_playerDied, h3,
                    List.append_nil]
                · intro p hp
                  have hp1 := (mem_alDelete.mp hp).1
                  rcases mem_alSet hp1 with rfl | hpm
                  · exact h4 hitPlayer (mem_of_alFind hfind)
                  · exact h4 p hpm
          · -- non-lethal damage: health updated in place
            refine ⟨hnd1, ?_⟩
            rcases hAB with ⟨h1, h2, h3⟩ | ⟨h1, h2, u, i, h3, h4⟩
            · refine Or.inl ⟨h1, ?_, ?_⟩
              · simp only [goFilter_append, goFilter_nil, goFilter_cons_playerUpdated,
                  goFilter_cons_projectileHit, h2, List.append_nil]
              · dsimp only
                omega
            · refine Or.inr ⟨h1, by dsimp only; omega, u, i, ?_, ?_⟩
              · simp only [goFilter_append, goFilter_nil, goFilter_cons_playerUpdated,
                  goFilter_cons_projectileHit, h3, List.append_nil]
              · intro p hp
                rcases mem_alSet hp with rfl | hpm
                · exact h4 hitPlayer (mem_of_alFind hfind)
                · exact h4 p hpm
    · -- no hit: the projectile is kept, nothing else changes
      exact ⟨hnd, hAB⟩

lemma foldl_TickInv (l : List Projectile) (acc : TickAcc) (h : TickInv acc) :
    TickInv (l.foldl processProjectile acc) := by
  induction l generalizing acc with
  | nil => exact h
  | cons p t ih => exact ih _ (TickInv_step acc p h)

/-- C3: when a tick of the game update loop over a playing room (with
distinct player ids) reduces the players mapping from at least two
entries to exactly one — including two lethal hits resolved within the
same tick — the room status becomes finished and the tick emits exactly
one gameOver event, naming the sole surviving player's username and
id. -/
theorem tick_single_survivor_gameOver (room : GameRoom)
    (hnd : (room.players.map Player.id).Nodup)
    (hst : room.status = Status.playing)
    (h2 : 2 ≤ room.players.length)
    (h1 : (tickRoom room).1.players.length = 1) :
    (tickRoom room).1.status = Status.finished ∧
    ∃ w : Player, (tickRoom room).1.players = [w] ∧
      goFilter (tickRoom room).2 = [Event.gameOver w.username w.id] := by
  have hfold : TickInv (room.projectiles.foldl processProjectile
      ⟨room.players, room.status, [], []⟩) :=
    foldl_TickInv _ _ ⟨hnd, Or.inl ⟨hst, rfl, h2⟩⟩
  simp only [tickRoom, if_pos hst] at h1 ⊢
  obtain ⟨hndf, hA | hB⟩ := hfold
  · exfalso
    have hlenA := hA.2.2
    omega
  · obtain ⟨hfin, hlen, u, i, hgo, hall⟩ := hB
    obtain ⟨w, hw⟩ := List.length_eq_one.mp h1
    have hwu := hall w (by rw [hw]; exact List.mem_singleton_self w)
    refine ⟨hfin, w, hw, ?_⟩
    rw [hwu.1, hwu.2]
    split
    · simp only [goFilter_append, goFilter_nil, goFilter_cons_projectilesUpdate,
        goFilter_cons_projectilesUpdated, hgo, List.append_nil]
    · simp only [goFilter_append, goFilter_nil, goFilter_cons_projectilesUpdated, hgo,
        List.append_nil]

lemma processT1 : processProjectile ⟨[pA, pB, pC], Status.playing, [], []⟩ projT1 =
    ⟨[pB, pC], Status.playing, eventsT1, []⟩ := by
  have hup : updateProjectile projT1 = ⟨"q1", ⟨100, 100⟩, ⟨10, 0⟩, "c"⟩ := by
    simp [updateProjectile, vectorAdd, projT1]
    norm_num
  have hw1 : ¬ checkWallCollision (⟨100, 100⟩ : Vector2D) PROJECTILE_RADIUS := by
    norm_num [checkWallCollision, PROJECTILE_RADIUS, MAP_WIDTH, MAP_HEIGHT]
  have hhit : playerHit ⟨"q1", ⟨100, 100⟩, ⟨10, 0⟩, "c"⟩ pA := by
    refine ⟨by decide, ?_⟩
    rw [show pA.position = (⟨100, 100⟩ : Vector2D) from rfl, distance_self]
    norm_num [PLAYER_RADIUS, PROJECTILE_RADIUS]
  have hcol : checkProjectileCollision ⟨"q1", ⟨100, 100⟩, ⟨10, 0⟩, "c"⟩ [pA, pB, pC] =
      ⟨true, some "a"⟩ := by
    unfold checkProjectileCollision
    rw [if_neg hw1]
    have hscan := scanPlayers_first ⟨"q1", ⟨100, 100⟩, ⟨10, 0⟩, "c"⟩ [] pA [pB, pC] hhit
      (by intro r hr; simp at hr)
    simpa using hscan
  simp only [processProjectile, hup]
  rw [show (updateProjectile projT1).position = (⟨100, 100⟩ : Vector2D) from by rw [hup],
    if_neg hw1, hcol]
  norm_num [alFind, alSet, alDelete, pA, pB, pC, projT1, eventsT1,
    List.filter_cons, List.filter_nil,
    (by decide : ¬ ("b" : String) = "a"), (by decide : ¬ ("c" : String) = "a"),
    (by decide : ¬ ("a" : String) = "c"), (by decide : ¬ ("b" : String) = "c")]

lemma processT2 : processProjectile ⟨[pB, pC], Status.playing, eventsT1, []⟩ projT2 =
    ⟨[pC], Status.finished, eventsT2, []⟩ := by
  have hup : updateProjectile projT2 = ⟨"q2", ⟨300, 300⟩, ⟨10, 0⟩, "c"⟩ := by
    simp [updateProjectile, vectorAdd, projT2]
    norm_num
  have hw2 : ¬ checkWallCollision (⟨300, 300⟩ : Vector2D) PROJECTILE_RADIUS := by
    norm_num [checkWallCollision, PROJECTILE_RADIUS, MAP_WIDTH, MAP_HEIGHT]
  have hhit : playerHit ⟨"q2", ⟨300, 300⟩, ⟨10, 0⟩, "c"⟩ pB := by
    refine ⟨by decide, ?_⟩
    rw [show pB.position = (⟨300, 300⟩ : Vector2D) from rfl, distance_self]
    norm_num [PLAYER_RADIUS, PROJECTILE_RADIUS]
  have hcol : checkProjectileCollision ⟨"q2", ⟨300, 300⟩, ⟨10, 0⟩, "c"⟩ [pB, pC] =
      ⟨true, some "b"⟩ := by
    unfold checkProjectileCollision
    rw [if_neg hw2]
    have hscan := scanPlayers_first ⟨"q2", ⟨300, 300⟩, ⟨10, 0⟩, "c"⟩ [] pB [pC] hhit
      (by intro r hr; simp at hr)
    simpa using hscan
  simp only [processProjectile, hup]
  rw [show (updateProjectile projT2).position = (⟨300, 300⟩ : Vector2D) from by rw [hup],
    if_neg hw2, hcol]
  norm_num [alFind, alSet, alDelete, pB, pC, projT2, eventsT1, eventsT2,
    List.filter_cons, List.filter_nil,
    (by decide : ¬ ("c" : String) = "b"), (by decide : ¬ ("b" : String) = "c")]

lemma foldT : roomT.projectiles.foldl processProjectile
    ⟨roomT.players, roomT.status, [], []⟩ = ⟨[pC], Status.finished, eventsT2, []⟩ := by
  show List.foldl processProjectile ⟨[pA, pB, pC], Status.playing, [], []⟩ [projT1, projT2] = _
  rw [List.foldl_cons, processT1, List.foldl_cons, processT2, List.foldl_nil]

lemma tickRoomT_players : (tickRoom roomT).1.players = [pC] := by
  simp only [tickRoom, foldT]
  rw [if_pos (show roomT.status = Status.playing from rfl)]

/-- C3 witness: the single-survivor theorem applied at the concrete
3-player playing room `roomT` where carol's two projectiles deal lethal
damage to alice and bob within the same tick. -/
theorem tick_single_survivor_gameOver_witness :
    ((roomT.players.map Player.id).Nodup ∧ roomT.status = Status.playing ∧
      2 ≤ roomT.players.length ∧ (tickRoom roomT).1.players.length = 1) ∧
    ((tickRoom roomT).1.status = Status.finished ∧
      ∃ w : Player, (tickRoom roomT).1.players = [w] ∧
        goFilter (tickRoom roomT).2 = [Event.gameOver w.username w.id]) := by
  have hlen : (tickRoom roomT).1.players.length = 1 := by
    rw [tickRoomT_players]
    rfl
  exact ⟨⟨by decide, rfl, by decide, hlen⟩,
    tick_single_survivor_gameOver roomT (by decide) rfl (by decide) hlen⟩
